import Mathlib

/-!
Verification of `appswitch.c`, a macOS command-line utility that finds the
first on-screen window whose owner-process name contains a given fragment
(case-insensitively) and brings that process to the foreground.

The C program is embedded shallowly:

* a window-list entry (`CFDictionaryRef`) becomes `WindowEntry`, holding the
  two consumed attributes `kCGWindowOwnerName` and `kCGWindowOwnerPID`, each
  optional since `CFDictionaryGetValue` may return NULL; the snapshot is a
  `List (Option WindowEntry)` because `CFArrayGetValueAtIndex` may also
  return NULL (the `if (!app) continue;` check);
* the OS environment is `OS`: the result of `CGWindowListCopyWindowInfo`
  (`none` when the call fails) and the `OSStatus` codes that
  `GetProcessForPID` and `SetFrontProcess` would return for a given pid
  (0 models `noErr`);
* `strcasestr` is modelled at the character level (`ciFind`/`ciPrefix`),
  comparing characters after ASCII lowercasing exactly as the C-locale
  `tolower` does; `CFStringGetCString` into the fixed 256-byte buffer is
  `cStringConv`, which succeeds exactly when the UTF-8 encoding plus the
  terminating NUL fits, i.e. when the byte size is at most 255;
* the scan loop of `switchToApp` becomes `scanStep` (one iteration body)
  and `scanApps` (the loop with its `break`);
* observable effects are tracked in `SwitchResult`/`MainResult`: the lines
  printed, the pids passed to `GetProcessForPID` (`psnCalls`) and to
  `SetFrontProcess` (`frontCalls`), whether enumeration was performed, the
  C return value / the process exit code.
-/

set_option maxRecDepth 8000

namespace Appswitch

/-- One entry of the CGWindowList snapshot: the two dictionary values the
program reads, each possibly absent (NULL from `CFDictionaryGetValue`). -/
structure WindowEntry where
  ownerName : Option String
  ownerPID : Option Int
deriving DecidableEq

/-- The OS environment an invocation runs against: the window snapshot
(`none` when `CGWindowListCopyWindowInfo` returns NULL) and the `OSStatus`
results of `GetProcessForPID` and `SetFrontProcess` for each pid. -/
structure OS where
  windowList : Option (List (Option WindowEntry))
  psnErr : Int → Int
  frontErr : Int → Int

/-- Observable outcome of `switchToApp`: the C `int` return value, the lines
printed, and the pids passed to `GetProcessForPID` and `SetFrontProcess`. -/
structure SwitchResult where
  ret : Int
  output : List String
  psnCalls : List Int
  frontCalls : List Int
deriving DecidableEq

/-- Observable outcome of `main`: exit code, printed lines, whether window
enumeration was performed, and the OS activation calls made. -/
structure MainResult where
  exitCode : Int
  output : List String
  enumerated : Bool
  psnCalls : List Int
  frontCalls : List Int
deriving DecidableEq

/-- Case-insensitive prefix test on character lists: the inner comparison
loop of `strcasestr`, lowering each character as the C-locale `tolower`
does (`Char.toLower` lowers exactly ASCII letters). -/
def ciPrefix : List Char → List Char → Bool
  | [], _ => true
  | _ :: _, [] => false
  | p :: ps, h :: hs => (p.toLower == h.toLower) && ciPrefix ps hs

/-- Case-insensitive occurrence test: the outer loop of `strcasestr`, trying
the prefix test at every suffix of the haystack. -/
def ciFind (pat : List Char) : List Char → Bool
  | [] => ciPrefix pat []
  | h :: hs => ciPrefix pat (h :: hs) || ciFind pat hs

/-- Model of `strcasestr(haystack, needle) != NULL`: does `needle` occur in
`haystack` up to ASCII case. -/
def strcasestr (haystack needle : String) : Bool :=
  ciFind needle.data haystack.data

/-- Model of `CFStringGetCString(cfAppName, buf, 256, kCFStringEncodingUTF8)`:
the conversion succeeds exactly when the UTF-8 encoding plus the terminating
NUL fits in the 256-byte buffer. -/
def cStringConv (s : String) : Option String :=
  if s.utf8ByteSize ≤ 255 then some s else none

/-- One iteration of the search loop of `switchToApp`: skip a NULL entry, an
entry with no owner name, or one whose name does not convert; on a
case-insensitive substring hit, return the `kCGWindowOwnerPID` value if that
field is present (the `break` case), otherwise keep scanning. -/
def scanStep (appName : String) (oe : Option WindowEntry) : Option Int :=
  match oe with
  | none => none
  | some app =>
    match app.ownerName with
    | none => none
    | some cfAppName =>
      match cStringConv cfAppName with
      | none => none
      | some currentAppName =>
        if strcasestr currentAppName appName then app.ownerPID else none

/-- The search loop of `switchToApp`: first `scanStep` hit wins (`break`),
`none` when the loop runs off the end of the snapshot. -/
def scanApps (appName : String) : List (Option WindowEntry) → Option Int
  | [] => none
  | oe :: rest =>
    match scanStep appName oe with
    | some pid => some pid
    | none => scanApps appName rest

/-- A single-quote character, for reproducing the printf format strings. -/
def squote : String := String.singleton (Char.ofNat 39)

/-- Message printed when no usable match was found. -/
def notFoundMsg (appName : String) : String :=
  "Application " ++ squote ++ appName ++ squote ++ " not found or not running"

/-- Message printed on successful activation; note the program prints the
search fragment `appName`, not the matched owner name. -/
def switchedMsg (appName : String) (pid : Int) : String :=
  "Switched to: " ++ appName ++ " (PID: " ++ toString pid ++ ")"

/-- Message printed when `SetFrontProcess` fails. -/
def frontFailMsg (err : Int) : String :=
  "Failed to bring application to front (error: " ++ toString err ++ ")"

/-- Message printed when `GetProcessForPID` fails. -/
def psnFailMsg (err : Int) : String :=
  "Failed to get process serial number (error: " ++ toString err ++ ")"

/-- Message printed when window enumeration fails. -/
def enumFailMsg : String := "Failed to get running applications list"

/-- Embedding of `switchToApp`. Enumerate; on NULL report and return 0.
Scan; `found` is 1 exactly when the scan produced a pid. When `found && pid > 0`,
call `GetProcessForPID` then `SetFrontProcess`, reporting errors; otherwise
print the not-found message. Note the source then executes `return found;`,
so a found-but-nonpositive pid still returns 1. -/
def switchToApp (os : OS) (appName : String) : SwitchResult :=
  match os.windowList with
  | none => ⟨0, [enumFailMsg], [], []⟩
  | some runningApps =>
    match scanApps appName runningApps with
    | some pid =>
      if pid > 0 then
        if os.psnErr pid = 0 then
          if os.frontErr pid = 0 then
            ⟨1, [switchedMsg appName pid], [pid], [pid]⟩
          else
            ⟨0, [frontFailMsg (os.frontErr pid)], [pid], [pid]⟩
        else
          ⟨0, [psnFailMsg (os.psnErr pid)], [pid], []⟩
      else
        ⟨1, [notFoundMsg appName], [], []⟩
    | none => ⟨0, [notFoundMsg appName], [], []⟩

/-- The three usage lines printed on wrong argument count. -/
def usageOutput (argv0 : String) : List String :=
  ["Usage: " ++ argv0 ++ " <app_name>",
   "Example: " ++ argv0 ++ " Safari",
   "Example: " ++ argv0 ++ " \"Visual Studio Code\""]

/-- Embedding of `main`: `argv0` is the program name, `args` the remaining
arguments, so `argc = args.length + 1`. On `argc != 2` print usage and exit 1
without touching the OS; otherwise run `switchToApp` on `argv[1]` and exit 0
exactly when it returned nonzero. -/
def main (os : OS) (argv0 : String) (args : List String) : MainResult :=
  if args.length + 1 ≠ 2 then
    ⟨1, usageOutput argv0, false, [], []⟩
  else
    let r := switchToApp os (args.headD "")
    ⟨if r.ret ≠ 0 then 0 else 1, r.output, true, r.psnCalls, r.frontCalls⟩

/-- Does the entry have an owner name containing the fragment
(case-insensitively)?  Used to state claims about "matching" entries
independently of pid presence and C-string conversion. -/
def nameMatches (appName : String) (oe : Option WindowEntry) : Bool :=
  match oe with
  | none => false
  | some app =>
    match app.ownerName with
    | none => false
    | some nm => strcasestr nm appName

/-- Concrete environment: one window owned by "Safari" with pid 0. -/
def os3 : OS := ⟨some [some ⟨some "Safari", some 0⟩], fun _ => 0, fun _ => 0⟩

/-- Concrete environment: one window owned by "Terminal" with pid 0. -/
def os5 : OS := ⟨some [some ⟨some "Terminal", some 0⟩], fun _ => 0, fun _ => 0⟩

/-- Concrete environment: one window owned by "Visual Studio Code", pid 7,
with both activation calls succeeding. -/
def os8 : OS := ⟨some [some ⟨some "Visual Studio Code", some 7⟩], fun _ => 0, fun _ => 0⟩

/-- An owner name whose UTF-8 encoding needs 256 bytes, so conversion into
the 256-byte buffer (with NUL) fails. -/
def bigName : String := String.mk (List.replicate 256 'a')

/-- The prefix loop succeeds exactly when the lowered haystack starts with
the lowered pattern. -/
lemma ciPrefix_iff (pat hay : List Char) :
    ciPrefix pat hay = true ↔
      ∃ r, hay.map Char.toLower = pat.map Char.toLower ++ r := by
  induction pat generalizing hay with
  | nil => simp [ciPrefix]
  | cons p ps ih =>
    cases hay with
    | nil => simp [ciPrefix]
    | cons h hs =>
      simp only [ciPrefix, Bool.and_eq_true, beq_iff_eq, ih, List.map_cons,
        List.cons_append, List.cons.injEq]
      constructor
      · rintro ⟨h1, r, h2⟩
        exact ⟨r, h1.symm, h2⟩
      · rintro ⟨r, h1, h2⟩
        exact ⟨h1.symm, r, h2⟩

/-- The occurrence loop succeeds exactly when the lowered pattern is a
contiguous segment of the lowered haystack. -/
lemma ciFind_iff (pat hay : List Char) :
    ciFind pat hay = true ↔
      ∃ l r, hay.map Char.toLower = l ++ pat.map Char.toLower ++ r := by
  induction hay with
  | nil =>
    simp only [ciFind, ciPrefix_iff, List.map_nil]
    constructor
    · rintro ⟨r, hr⟩
      exact ⟨[], r, by simpa using hr⟩
    · rintro ⟨l, r, hr⟩
      refine ⟨pat.map Char.toLower ++ r, ?_⟩
      rcases List.append_eq_nil.mp hr.symm with ⟨h1, h2⟩
      rcases List.append_eq_nil.mp h1 with ⟨h3, h4⟩
      simp [h2, h4]
  | cons h hs ih =>
    simp only [ciFind, Bool.or_eq_true, ciPrefix_iff, ih, List.map_cons]
    constructor
    · rintro (⟨r, hr⟩ | ⟨l, r, hr⟩)
      · exact ⟨[], r, by simpa using hr⟩
      · exact ⟨h.toLower :: l, r, by simp [hr]⟩
    · rintro ⟨l, r, hr⟩
      cases l with
      | nil => exact Or.inl ⟨r, by simpa using hr⟩
      | cons x l =>
        simp only [List.cons_append] at hr
        injection hr with h1 h2
        exact Or.inr ⟨l, r, h2⟩

/-- Conversion never alters a string: it either fails or returns its input. -/
lemma cStringConv_eq_some {nm c : String} (h : cStringConv nm = some c) :
    c = nm := by
  unfold cStringConv at h
  split at h
  · injection h with h
    exact h.symm
  · exact Option.noConfusion h

/-- One scan step on an entry that yields no full match just moves on. -/
lemma scanApps_cons_none {appName : String} {oe : Option WindowEntry}
    {rest : List (Option WindowEntry)} (h : scanStep appName oe = none) :
    scanApps appName (oe :: rest) = scanApps appName rest := by
  simp [scanApps, h]

/-- One scan step on a fully matching entry stops the loop with its pid. -/
lemma scanApps_cons_some {appName : String} {oe : Option WindowEntry}
    {rest : List (Option WindowEntry)} {p : Int}
    (h : scanStep appName oe = some p) :
    scanApps appName (oe :: rest) = some p := by
  simp [scanApps, h]

/-- A block of entries none of which fully matches is scanned through
without effect. -/
lemma scanApps_append_none (appName : String)
    {pre : List (Option WindowEntry)} (rest : List (Option WindowEntry))
    (h : ∀ x ∈ pre, scanStep appName x = none) :
    scanApps appName (pre ++ rest) = scanApps appName rest := by
  induction pre with
  | nil => rfl
  | cons a pre ih =>
    rw [List.cons_append, scanApps_cons_none (h a (by simp))]
    exact ih (fun x hx => h x (by simp [hx]))

/-- Removing a never-matching entry from the middle of the snapshot does not
change the scan result. -/
lemma scanApps_middle_none (appName : String) (x : Option WindowEntry)
    (h : scanStep appName x = none) (pre post : List (Option WindowEntry)) :
    scanApps appName (pre ++ x :: post) = scanApps appName (pre ++ post) := by
  induction pre with
  | nil => simpa using scanApps_cons_none h
  | cons a pre ih =>
    simp only [List.cons_append, scanApps]
    cases hsa : scanStep appName a <;> simp [hsa, ih]

/-- An entry whose owner name does not contain the fragment can never
produce a full match, whatever its pid field holds. -/
lemma scanStep_none_of_not_matched (appName : String) (oe : Option WindowEntry)
    (h : nameMatches appName oe = false) : scanStep appName oe = none := by
  cases oe with
  | none => rfl
  | some app =>
    rcases happ : app.ownerName with _ | nm
    · simp [scanStep, happ]
    · have hm : strcasestr nm appName = false := by
        simpa [nameMatches, happ] using h
      rcases hc : cStringConv nm with _ | c
      · simp [scanStep, happ, hc]
      · have hcnm : c = nm := cStringConv_eq_some hc
        simp [scanStep, happ, hc, hcnm, hm]

/-- A snapshot in which no owner name contains the fragment scans to
nothing. -/
lemma scanApps_none_of_no_match (appName : String)
    (apps : List (Option WindowEntry))
    (h : ∀ x ∈ apps, nameMatches appName x = false) :
    scanApps appName apps = none := by
  induction apps with
  | nil => rfl
  | cons a rest ih =>
    rw [scanApps_cons_none (scanStep_none_of_not_matched appName a (h a (by simp)))]
    exact ih (fun x hx => h x (by simp [hx]))

/-- Both activation-related call lists of `switchToApp` hold at most one
pid, on every path. -/
lemma switchToApp_calls_bound (os : OS) (appName : String) :
    (switchToApp os appName).frontCalls.length ≤ 1
    ∧ (switchToApp os appName).psnCalls.length ≤ 1 := by
  unfold switchToApp
  repeat' split
  all_goals simp

/-- C1 (counterexample): the snapshot `[Safari without pid, Safari with pid 5]`
contains an entry (the first) whose owner name contains the fragment, yet the
scan does not stop there: it examines the later entry and records 5, and on
the truncated snapshot holding only the first entry it finds nothing at all. -/
theorem scanApps_continues_past_pidless_match :
    strcasestr "Safari" "safari" = true
    ∧ scanApps "safari"
        [some ⟨some "Safari", none⟩, some ⟨some "Safari", some 5⟩] = some 5
    ∧ scanApps "safari" [some ⟨some "Safari", none⟩] = none := by
  decide

/-- C1 (amended): the scan selects the first entry that is present, has an
owner name that converts to the 256-byte C buffer and contains the fragment
case-insensitively, and carries a pid value (`scanStep` hit); it records that
entry's pid, and the entries after it never influence the result (the
conclusion holds for every `post`). Entries matching by name but lacking a
pid value are skipped and scanning continues. -/
theorem scanApps_selects_first_full_match (appName : String)
    (pre post : List (Option WindowEntry)) (oe : Option WindowEntry) (p : Int)
    (hpre : ∀ x ∈ pre, scanStep appName x = none)
    (he : scanStep appName oe = some p) :
    scanApps appName (pre ++ oe :: post) = some p := by
  rw [scanApps_append_none appName (oe :: post) hpre, scanApps_cons_some he]

/-- C1 (witness): with a non-matching entry first, a full match second and a
further match later, the scan returns the second entry's pid 5. -/
theorem scanApps_selects_first_full_match_witness :
    scanApps "safari"
      ([some ⟨some "Chrome", some 9⟩] ++
        some ⟨some "Safari", some 5⟩ :: [some ⟨some "Safari Helper", some 6⟩])
      = some 5 :=
  scanApps_selects_first_full_match "safari"
    [some ⟨some "Chrome", some 9⟩] [some ⟨some "Safari Helper", some 6⟩]
    (some ⟨some "Safari", some 5⟩) 5 (by decide) (by decide)

/-- C2: the match predicate applied by the scan holds exactly when the
fragment is a case-insensitive substring of the owner name; in particular
"safari" matches "Safari", "code" matches "Visual Studio Code", and the
empty fragment matches every owner name. -/
theorem strcasestr_iff_ci_substring :
    (∀ hay frag : String, strcasestr hay frag = true ↔
      ∃ l r, hay.data.map Char.toLower = l ++ frag.data.map Char.toLower ++ r)
    ∧ strcasestr "Safari" "safari" = true
    ∧ strcasestr "Visual Studio Code" "code" = true
    ∧ (∀ hay : String, strcasestr hay "" = true) := by
  refine ⟨fun hay frag => ciFind_iff frag.data hay.data, by decide, by decide,
    fun hay => ?_⟩
  have h := (ciFind_iff ("".data) hay.data).mpr
    ⟨[], hay.data.map Char.toLower, by simp⟩
  exact h

/-- C3 (code evaluated at the failing input): with one "Safari" window whose
pid is 0, the program prints the not-found message, performs neither
activation call, yet exits with status 0 — `found` was set before the
`pid > 0` test and `return found` still reports success. -/
theorem main_exit_zero_without_activation :
    main os3 "appswitch" ["Safari"]
      = ⟨0, [notFoundMsg "Safari"], true, [], []⟩ := by
  decide

/-- C4: when no entry of the snapshot has an owner name containing the
fragment, `switchToApp` returns 0, prints exactly the not-found message, and
makes no activation call. -/
theorem switchToApp_not_found (os : OS) (appName : String)
    (apps : List (Option WindowEntry)) (hw : os.windowList = some apps)
    (hno : ∀ x ∈ apps, nameMatches appName x = false) :
    switchToApp os appName = ⟨0, [notFoundMsg appName], [], []⟩ := by
  have hs := scanApps_none_of_no_match appName apps hno
  simp [switchToApp, hw, hs]

/-- C4 (witness): fragment "Nonexistent" against a single "Finder" window. -/
theorem switchToApp_not_found_witness :
    switchToApp ⟨some [some ⟨some "Finder", some 100⟩], fun _ => 0, fun _ => 0⟩
        "Nonexistent"
      = ⟨0, [notFoundMsg "Nonexistent"], [], []⟩ :=
  switchToApp_not_found
    ⟨some [some ⟨some "Finder", some 100⟩], fun _ => 0, fun _ => 0⟩
    "Nonexistent" [some ⟨some "Finder", some 100⟩] rfl (by decide)

/-- C5 (code evaluated at the failing input): a matching entry with pid 0 is
selected by the scan; no activation call is attempted (as the claim says),
but instead of reporting failure the function prints the not-found message
and returns 1, i.e. success. -/
theorem switchToApp_zero_pid_returns_success :
    switchToApp os5 "Terminal" = ⟨1, [notFoundMsg "Terminal"], [], []⟩ := by
  decide

/-- C6: when window enumeration yields no list, `switchToApp` returns 0,
prints exactly "Failed to get running applications list", and performs no
scan or activation call. -/
theorem switchToApp_enum_failure (os : OS) (appName : String)
    (h : os.windowList = none) :
    switchToApp os appName
      = ⟨0, ["Failed to get running applications list"], [], []⟩ := by
  simp [switchToApp, h, enumFailMsg]

/-- C6 (witness): a concrete environment with no window list. -/
theorem switchToApp_enum_failure_witness :
    switchToApp ⟨none, fun _ => 0, fun _ => 0⟩ "Safari"
      = ⟨0, ["Failed to get running applications list"], [], []⟩ :=
  switchToApp_enum_failure ⟨none, fun _ => 0, fun _ => 0⟩ "Safari" rfl

/-- C7: with an argument count different from one (argc different from 2),
`main` prints the usage line and the two example lines, exits with status 1,
and performs no enumeration and no activation call. -/
theorem main_usage_error (os : OS) (argv0 : String) (args : List String)
    (h : args.length + 1 ≠ 2) :
    main os argv0 args
      = ⟨1, ["Usage: " ++ argv0 ++ " <app_name>",
             "Example: " ++ argv0 ++ " Safari",
             "Example: " ++ argv0 ++ " \"Visual Studio Code\""],
          false, [], []⟩ := by
  simp [main, h, usageOutput]

/-- C7 (witness): zero command-line arguments. -/
theorem main_usage_error_witness :
    main ⟨none, fun _ => 0, fun _ => 0⟩ "appswitch" []
      = ⟨1, ["Usage: " ++ "appswitch" ++ " <app_name>",
             "Example: " ++ "appswitch" ++ " Safari",
             "Example: " ++ "appswitch" ++ " \"Visual Studio Code\""],
          false, [], []⟩ :=
  main_usage_error ⟨none, fun _ => 0, fun _ => 0⟩ "appswitch" [] (by decide)

/-- C8 (counterexample): searching "stu" selects the window owned by
"Visual Studio Code" and activation succeeds, but the success message is
"Switched to: stu (PID: 7)": it carries the fragment, and the matched
application name occurs nowhere in it, not even case-insensitively. -/
theorem switchToApp_prints_fragment_not_name :
    switchToApp os8 "stu"
      = ⟨1, ["Switched to: stu (PID: 7)"], [7], [7]⟩
    ∧ ciFind "Visual Studio Code".data "Switched to: stu (PID: 7)".data
      = false := by
  decide

/-- C8 (amended): on full success `switchToApp` reports the search fragment
(not the matched owner name) together with the process identifier, and
returns success. -/
theorem switchToApp_success (os : OS) (appName : String)
    (apps : List (Option WindowEntry)) (pid : Int)
    (hw : os.windowList = some apps) (hs : scanApps appName apps = some pid)
    (hp : pid > 0) (hpsn : os.psnErr pid = 0) (hfront : os.frontErr pid = 0) :
    switchToApp os appName
      = ⟨1, ["Switched to: " ++ appName ++ " (PID: " ++ toString pid ++ ")"],
          [pid], [pid]⟩ := by
  simp [switchToApp, hw, hs, hp, hpsn, hfront, switchedMsg]

/-- C8 (witness): the amended success behaviour at the concrete environment
of the counterexample. -/
theorem switchToApp_success_witness :
    switchToApp os8 "stu"
      = ⟨1, ["Switched to: " ++ "stu" ++ " (PID: " ++ toString (7 : Int) ++ ")"],
          [7], [7]⟩ :=
  switchToApp_success os8 "stu" [some ⟨some "Visual Studio Code", some 7⟩] 7
    rfl (by decide) (by decide) rfl rfl

/-- C9: on every invocation — any OS environment and any argument list —
`SetFrontProcess` is called at most once, and so is `GetProcessForPID`; no
execution path activates more than one process. -/
theorem main_activates_at_most_once (os : OS) (argv0 : String)
    (args : List String) :
    (main os argv0 args).frontCalls.length ≤ 1
    ∧ (main os argv0 args).psnCalls.length ≤ 1 := by
  unfold main
  split
  · simp
  · simpa using switchToApp_calls_bound os (args.headD "")

/-- C10: an entry whose owner name needs more than 255 UTF-8 bytes (so the
256-byte buffer conversion fails) is silently skipped: deleting it from the
snapshot changes neither the scan result nor any observable outcome of
`switchToApp`, whatever pid it carries and wherever it sits. -/
theorem scanApps_skips_unconvertible_name (appName nm : String)
    (p : Option Int) (pre post : List (Option WindowEntry))
    (psn front : Int → Int) (h : 255 < nm.utf8ByteSize) :
    scanApps appName (pre ++ some ⟨some nm, p⟩ :: post)
      = scanApps appName (pre ++ post)
    ∧ switchToApp ⟨some (pre ++ some ⟨some nm, p⟩ :: post), psn, front⟩ appName
      = switchToApp ⟨some (pre ++ post), psn, front⟩ appName := by
  have hstep : scanStep appName (some ⟨some nm, p⟩) = none := by
    have hc : cStringConv nm = none := by
      unfold cStringConv
      rw [if_neg (by omega)]
    simp [scanStep, hc]
  have hscan := scanApps_middle_none appName _ hstep pre post
  refine ⟨hscan, ?_⟩
  simp only [switchToApp]
  rw [hscan]

/-- C10 (witness): a 256-byte owner name consisting of 256 times 'a' matches
the fragment "a" by content, yet its entry is transparent to the scan and to
`switchToApp`. -/
theorem scanApps_skips_unconvertible_name_witness :
    scanApps "a" ([] ++ some ⟨some bigName, some 3⟩ ::
        [some ⟨some "Calendar", some 4⟩])
      = scanApps "a" ([] ++ [some ⟨some "Calendar", some 4⟩])
    ∧ switchToApp ⟨some ([] ++ some ⟨some bigName, some 3⟩ ::
          [some ⟨some "Calendar", some 4⟩]), fun _ => 0, fun _ => 0⟩ "a"
      = switchToApp ⟨some ([] ++ [some ⟨some "Calendar", some 4⟩]),
          fun _ => 0, fun _ => 0⟩ "a" :=
  scanApps_skips_unconvertible_name "a" bigName (some 3) []
    [some ⟨some "Calendar", some 4⟩] (fun _ => 0) (fun _ => 0) (by decide)

end Appswitch
